import Mathlib

/-!
Verification development for the any2pg migration core.

Shallow embedding of the modules named by the claims:
* `src/modules/postgres_verifier.py` — statement classification, policy
  filtering, and transactional verify/apply execution.
* `src/agents/workflow.py` — the per-asset migration state machine.
* `src/modules/context_builder.py` / `src/modules/code_analysis.py` —
  dependency extraction with CTE shadowing and metadata ordering.

External collaborators (sqlglot parsing, the LLM review/rewrite services,
psycopg connections, the sqlite metadata store) are modelled as explicit
oracle parameters; everything the Python modules themselves compute is
translated directly.
-/

namespace Any2PG

/-! ## Python string primitives

The Python source leans on `str.strip`, `str.upper`, `str.startswith` and
the `in` substring test.  They are embedded here as executable functions
over the character list of a `String` (so that concrete witnesses can be
checked by `decide`). -/

/-- Python `str.strip()` restricted to whitespace. -/
def pyStrip (s : String) : String :=
  ⟨((s.data.dropWhile Char.isWhitespace).reverse.dropWhile Char.isWhitespace).reverse⟩

/-- Python `str.upper()` (ASCII case mapping suffices for the SQL keywords
the source compares against). -/
def pyUpper (s : String) : String := ⟨s.data.map Char.toUpper⟩

/-- Python `s.startswith(p)`. -/
def pyStartswith (s p : String) : Bool := p.data.isPrefixOf s.data

/-- Helper for Python's `sub in s` substring test. -/
def listContainsSub (sub : List Char) : List Char → Bool
  | [] => sub.isPrefixOf []
  | c :: rest => sub.isPrefixOf (c :: rest) || listContainsSub sub rest

/-- Python `sub in s` on strings. -/
def pyContains (s sub : String) : Bool := listContainsSub sub.data s.data

/-- Python `s.splitlines()[0] if s else ""`: the text up to the first line
terminator. -/
def pyFirstLine (s : String) : String :=
  ⟨s.data.takeWhile (fun c => !(c = '\n' || c = '\r'))⟩

/-! ## Statement classification (`postgres_verifier.py`) -/

/-- The sqlglot expression classes that `_classify_statement` inspects.
`command` carries the upper-cased leading token (`stmt.this.sql()`). -/
inductive SqlNodeKind where
  | select
  | create
  | alter
  | drop
  | insert
  | update
  | delete
  | merge
  | command (token : String)
  | callNode
  | procedureNode
  | other
deriving DecidableEq, Repr

/-- One parsed statement: its node kind plus its postgres re-serialization
(`stmt.sql(dialect="postgres")`), which is also the `raw` text used by
`_split_statements`. -/
structure SqlStmt where
  kind : SqlNodeKind
  sqlText : String
deriving DecidableEq, Repr

inductive StmtCategory where
  | safe
  | dangerous
  | procedure
deriving DecidableEq, Repr

/-- `isinstance(stmt, procedure_nodes)` — `exp.Call` / `exp.Procedure`. -/
def isProcedureNode : SqlNodeKind → Bool
  | .callNode => true
  | .procedureNode => true
  | _ => false

/-- `isinstance(stmt, dangerous_nodes)` — Create/Alter/Drop/Insert/Update/
Delete/Merge/Command. -/
def isDangerousNode : SqlNodeKind → Bool
  | .create => true
  | .alter => true
  | .drop => true
  | .insert => true
  | .update => true
  | .delete => true
  | .merge => true
  | .command _ => true
  | _ => false

/-- `VerifierAgent._classify_statement`, branch for branch. -/
def classify_statement (stmt : SqlStmt) : StmtCategory :=
  if isProcedureNode stmt.kind then .procedure
  else if isDangerousNode stmt.kind then
    match stmt.kind with
    | .command token =>
        if pyUpper token ∈ ["CALL", "EXEC", "EXECUTE", "DO"] then .procedure
        else .dangerous
    | _ => .dangerous
  else
    let leading := pyUpper (pyStrip stmt.sqlText)
    if pyStartswith leading "CALL " ∨ pyStartswith leading "EXEC " ∨
        pyStartswith leading "EXECUTE " ∨ pyStartswith leading "DO " then .procedure
    else if pyStartswith leading "INSERT" ∨ pyStartswith leading "UPDATE" ∨
        pyStartswith leading "DELETE" ∨ pyStartswith leading "TRUNCATE" ∨
        pyStartswith leading "DROP" ∨ pyStartswith leading "ALTER" ∨
        pyStartswith leading "CREATE" then .dangerous
    else .safe

/-- Verification policy flags from `config.yaml` (`verification:` section);
both default to `False` in `VerifierAgent.__init__`. -/
structure VerifierConfig where
  allow_dangerous : Bool := false
  allow_procedures : Bool := false
deriving DecidableEq, Repr

/-- The filtering loop of `VerifierAgent._prepare_statements`: walk the
parsed statements in script order, route each raw text to the executable
or the skipped list according to its classification and the policy flags. -/
def prepare_statements (cfg : VerifierConfig) : List SqlStmt → List String × List String
  | [] => ([], [])
  | stmt :: rest =>
    let raw := stmt.sqlText
    let tail := prepare_statements cfg rest
    match classify_statement stmt with
    | .procedure =>
        if cfg.allow_procedures then (raw :: tail.1, tail.2) else (tail.1, raw :: tail.2)
    | .dangerous =>
        if cfg.allow_dangerous then (raw :: tail.1, tail.2) else (tail.1, raw :: tail.2)
    | .safe => (raw :: tail.1, tail.2)

/-! ## Transactional execution (`verify_sql` / `apply_sql`)

The psycopg connection is modelled by an oracle environment `DbEnv`; the
explicit database actions the Python code performs (connect, `BEGIN`,
statement execution, rollback, commit) are recorded in a trace. -/

/-- `VerificationResult` dataclass. -/
structure VerificationResult where
  success : Bool
  error : Option String
  skipped_statements : List String := []
  executed_statements : Nat := 0
  notes : Option String := none
deriving DecidableEq, Repr

/-- One observable action against the target database. -/
inductive DbAction where
  | connect
  | begin
  | execStmt (sql : String)
  | rollback
  | commit
deriving DecidableEq, Repr

/-- Outcome of `cur.execute` on one statement: success, a `psycopg.Error`
(with `diag.message_primary`, `diag.context`, and `str(db_err)`), or any
other exception. -/
inductive StmtOutcome where
  | ok
  | dbError (primary : Option String) (context : Option String) (fallback : String)
  | raised (msg : String)

/-- Oracle for the live target database. -/
structure DbEnv where
  /-- `psycopg.connect` raising, as `str(e)`. -/
  connectError : Option String := none
  /-- Outcome of executing the statement at 1-based index `idx`
  (index 0 is reserved for the explicit `BEGIN`). -/
  outcome : Nat → String → StmtOutcome

/-- Result of the inner execution loop of `verify_sql`: how it left the
`try` block. `failed` mirrors `failing_idx` / `failing_stmt`, which are
`None` when `BEGIN` itself fails. -/
inductive ExecResult where
  | allOk (executed : Nat)
  | failed (executed : Nat) (idx : Option Nat) (stmt : Option String)
      (primary : Option String) (context : Option String) (fallback : String)
  | raised (executed : Nat) (msg : String)

/-- The `for idx, statement in enumerate(executable, start=1)` loop. -/
def execLoop (env : DbEnv) : Nat → Nat → List String → List DbAction × ExecResult
  | _, executed, [] => ([], .allOk executed)
  | idx, executed, s :: rest =>
    match env.outcome idx s with
    | .ok =>
        let t := execLoop env (idx + 1) (executed + 1) rest
        (.execStmt s :: t.1, t.2)
    | .dbError p c f => ([.execStmt s], .failed executed (some idx) (some s) p c f)
    | .raised m => ([.execStmt s], .raised executed m)

/-- Python `a or b` on an optional string (`None` and `""` are falsy). -/
def pyOr (a : Option String) (b : String) : String :=
  match a with
  | some s => if s = "" then b else s
  | none => b

/-- The diagnostic string composed in `verify_sql`'s `except psycopg.Error`
branch (Python renders a `None` index as the text `None`). -/
def composeVerifyError (idx : Option Nat) (stmt : Option String)
    (primary context : Option String) (fallback : String) : String :=
  let fallback_message := if fallback = "" then "Unknown database error" else fallback
  let base := "Statement #" ++ (match idx with | some i => toString i | none => "None")
      ++ " failed: " ++ pyOr primary fallback_message
  let base := match context with
    | some c => if c = "" then base else base ++ " | Context: " ++ c
    | none => base
  match stmt with
  | some s => if s = "" then base else base ++ " | SQL: " ++ s
  | none => base

/-- The diagnostic string composed in `apply_sql`'s `except psycopg.Error`
branch. -/
def composeApplyError (stmt : Option String)
    (primary context : Option String) (fallback : String) : String :=
  let base := pyOr primary (if fallback = "" then "Unknown database error" else fallback)
  let base := match context with
    | some c => if c = "" then base else base ++ " | Context: " ++ c
    | none => base
  match stmt with
  | some s => if s = "" then base else base ++ " | SQL: " ++ s
  | none => base

/-- The transaction body of `verify_sql`: `cur.execute("BEGIN")` followed by
the statement loop. -/
def runVerifyTx (env : DbEnv) (executable : List String) : List DbAction × ExecResult :=
  match env.outcome 0 "BEGIN" with
  | .ok =>
      let t := execLoop env 1 0 executable
      (DbAction.begin :: t.1, t.2)
  | .dbError p c f => ([DbAction.begin], .failed 0 none none p c f)
  | .raised m => ([DbAction.begin], .raised 0 m)

/-- `_split_statements` + the re-parse in `_prepare_statements`, with
sqlglot's parse as an oracle.  A `ParseError` or an empty statement list
becomes the `ValueError` text that `_prepare_statements` returns as
`prep_error`. -/
def prepare_statements_full (cfg : VerifierConfig)
    (parse : String → Except String (List SqlStmt)) (sql_script : String) :
    List String × List String × Option String :=
  match parse sql_script with
  | .error e => ([], [], some ("SQL parse error: " ++ e))
  | .ok [] => ([], [], some "No executable statements found in SQL script")
  | .ok stmts =>
      let p := prepare_statements cfg stmts
      (p.1, p.2, none)

/-- How `verify_sql` turns the loop outcome into a `VerificationResult`
(the success return, the `except psycopg.Error` return, and the outer
`except Exception` return). -/
def verifyResult (skipped : List String) (r : ExecResult) : VerificationResult :=
  match r with
  | .allOk executed =>
      ⟨true, none, skipped, executed,
        some "Data parity is not validated; please run your own comparisons."⟩
  | .failed executed idx stmt p c f =>
      ⟨false, some (composeVerifyError idx stmt p c f), skipped, executed, none⟩
  | .raised _ m => ⟨false, some m, [], 0, none⟩

/-- `VerifierAgent.verify_sql`: empty-script guard, statement preparation,
all-skipped shortcut, then transactional execution whose `finally` clause
makes `conn.rollback()` the terminating action on every path (the success
return, the database-error return, and a propagating exception alike). -/
def verify_sql (cfg : VerifierConfig) (parse : String → Except String (List SqlStmt))
    (env : DbEnv) (sql_script : String) : List DbAction × VerificationResult :=
  if sql_script = "" ∨ pyStrip sql_script = "" then
    ([], ⟨false, some "Empty SQL script", [], 0, none⟩)
  else
    match prepare_statements_full cfg parse sql_script with
    | (_, _, some prep_error) => ([], ⟨false, some prep_error, [], 0, none⟩)
    | (executable, skipped, none) =>
      if executable = [] ∧ skipped ≠ [] then
        ([], ⟨true, none, skipped, 0,
          some ("All statements skipped due to verification safety settings; " ++
            "functional data checks must be done manually.")⟩)
      else
        match env.connectError with
        | some e => ([.connect], ⟨false, some e, [], 0, none⟩)
        | none =>
            let t := runVerifyTx env executable
            (DbAction.connect :: t.1 ++ [DbAction.rollback], verifyResult skipped t.2)

/-- `VerifierAgent.apply_sql`: same guard and filtering, but commits on
full success and rolls back only in the `except psycopg.Error` branch (a
non-psycopg exception leaves the loop with no explicit rollback or commit
call in the source). -/
def apply_sql (cfg : VerifierConfig) (parse : String → Except String (List SqlStmt))
    (env : DbEnv) (sql_script : String) : List DbAction × VerificationResult :=
  if sql_script = "" ∨ pyStrip sql_script = "" then
    ([], ⟨false, some "Empty SQL script", [], 0, none⟩)
  else
    match prepare_statements_full cfg parse sql_script with
    | (_, _, some prep_error) => ([], ⟨false, some prep_error, [], 0, none⟩)
    | (executable, skipped, none) =>
      if executable = [] then
        ([], ⟨true, none, skipped, 0, some "No executable statements after safety filtering"⟩)
      else
        match env.connectError with
        | some e => ([.connect], ⟨false, some e, [], 0, none⟩)
        | none =>
            let t := execLoop env 1 0 executable
            match t.2 with
            | .allOk executed =>
                (DbAction.connect :: t.1 ++ [DbAction.commit],
                 ⟨true, none, skipped, executed, some "Statements applied to target database."⟩)
            | .failed executed _ stmt p c f =>
                (DbAction.connect :: t.1 ++ [DbAction.rollback],
                 ⟨false, some (composeApplyError stmt p c f), skipped, executed, none⟩)
            | .raised _ m =>
                (DbAction.connect :: t.1, ⟨false, some m, [], 0, none⟩)

/-- sqlglot's parse of `DROP TABLE foo` (postgres dialect): an `exp.Drop`. -/
def dropTableFooStmt : SqlStmt := ⟨.drop, "DROP TABLE foo"⟩

/-- sqlglot's parse of `CALL proc()`: a raw `exp.Command` whose leading
token is `CALL`. -/
def callProcStmt : SqlStmt := ⟨.command "CALL", "CALL proc()"⟩

/-- sqlglot's parse of `SELECT 1`: an `exp.Select`. -/
def selectOneStmt : SqlStmt := ⟨.select, "SELECT 1"⟩

/-- With both allow-flags false, `_prepare_statements` routes exactly the
SAFE statements to the executable list and everything else to the skipped
list, preserving script order. -/
theorem prepare_statements_default (cfg : VerifierConfig)
    (hd : cfg.allow_dangerous = false) (hp : cfg.allow_procedures = false) :
    ∀ stmts : List SqlStmt,
      prepare_statements cfg stmts =
        ((stmts.filter (fun s => classify_statement s = StmtCategory.safe)).map SqlStmt.sqlText,
         (stmts.filter (fun s => ¬ classify_statement s = StmtCategory.safe)).map SqlStmt.sqlText)
  | [] => rfl
  | stmt :: rest => by
    have ih := prepare_statements_default cfg hd hp rest
    simp only [prepare_statements, ih]
    rcases h : classify_statement stmt with _ | _ | _ <;>
      simp [h, hd, hp, List.filter_cons]

/-- **C2.** For every script whose statements classify as one SAFE, one
DANGEROUS, and one PROCEDURAL, with both allow-flags false, exactly the
SAFE statement is placed in the executable list and the DANGEROUS and
PROCEDURAL statements both appear in the skipped list; nothing filtered
out is dropped from the audit trail. -/
theorem c2_filtering_completeness (cfg : VerifierConfig) (stmts : List SqlStmt)
    (s1 s2 s3 : SqlStmt)
    (hd : cfg.allow_dangerous = false) (hp : cfg.allow_procedures = false)
    (hperm : stmts.Perm [s1, s2, s3])
    (h1 : classify_statement s1 = StmtCategory.safe)
    (h2 : classify_statement s2 = StmtCategory.dangerous)
    (h3 : classify_statement s3 = StmtCategory.procedure) :
    (prepare_statements cfg stmts).1 = [s1.sqlText] ∧
    s2.sqlText ∈ (prepare_statements cfg stmts).2 ∧
    s3.sqlText ∈ (prepare_statements cfg stmts).2 ∧
    (prepare_statements cfg stmts).2.length = 2 := by
  have hchar := prepare_statements_default cfg hd hp stmts
  have hsf : (stmts.filter (fun s => classify_statement s = StmtCategory.safe)).Perm
      ([s1, s2, s3].filter (fun s => classify_statement s = StmtCategory.safe)) :=
    hperm.filter _
  have hnf : (stmts.filter (fun s => ¬ classify_statement s = StmtCategory.safe)).Perm
      ([s1, s2, s3].filter (fun s => ¬ classify_statement s = StmtCategory.safe)) :=
    hperm.filter _
  have e1 : [s1, s2, s3].filter (fun s => classify_statement s = StmtCategory.safe) = [s1] := by
    simp [List.filter_cons, h1, h2, h3]
  have e2 : [s1, s2, s3].filter (fun s => ¬ classify_statement s = StmtCategory.safe)
      = [s2, s3] := by
    simp [List.filter_cons, h1, h2, h3]
  rw [e1] at hsf
  rw [e2] at hnf
  have hsl : stmts.filter (fun s => classify_statement s = StmtCategory.safe) = [s1] :=
    List.perm_singleton.mp hsf
  refine ⟨?_, ?_, ?_, ?_⟩
  · rw [hchar, hsl]; rfl
  · rw [hchar]
    exact List.mem_map_of_mem _ (hnf.mem_iff.mpr (by simp))
  · rw [hchar]
    exact List.mem_map_of_mem _ (hnf.mem_iff.mpr (by simp))
  · rw [hchar]
    exact (List.length_map _ _).trans hnf.length_eq

/-- Witness for C2 at the concrete script
`SELECT 1; DROP TABLE foo; CALL proc()`. -/
theorem c2_filtering_completeness_witness :
    (prepare_statements {} [selectOneStmt, dropTableFooStmt, callProcStmt]).1
      = [selectOneStmt.sqlText] ∧
    dropTableFooStmt.sqlText
      ∈ (prepare_statements {} [selectOneStmt, dropTableFooStmt, callProcStmt]).2 ∧
    callProcStmt.sqlText
      ∈ (prepare_statements {} [selectOneStmt, dropTableFooStmt, callProcStmt]).2 ∧
    (prepare_statements {} [selectOneStmt, dropTableFooStmt, callProcStmt]).2.length = 2 :=
  c2_filtering_completeness {} [selectOneStmt, dropTableFooStmt, callProcStmt]
    selectOneStmt dropTableFooStmt callProcStmt rfl rfl (List.Perm.refl _)
    (by decide) (by decide) (by decide)

/-- **C7.** Classification is deterministic (a pure function of the parsed
statement); `DROP TABLE foo` is DANGEROUS, `CALL proc()` is PROCEDURAL,
`SELECT 1` is SAFE; and every statement maps to exactly one category. -/
theorem c7_classification_determinism :
    (∀ s : SqlStmt, classify_statement s = classify_statement s) ∧
    classify_statement dropTableFooStmt = StmtCategory.dangerous ∧
    classify_statement callProcStmt = StmtCategory.procedure ∧
    classify_statement selectOneStmt = StmtCategory.safe ∧
    (∀ s : SqlStmt, ∃! c : StmtCategory, classify_statement s = c) :=
  ⟨fun _ => rfl, by decide, by decide, by decide,
   fun s => ⟨classify_statement s, rfl, fun _ h => h.symm⟩⟩

/-- Every action emitted by the statement loop is a statement execution. -/
theorem execLoop_actions (env : DbEnv) :
    ∀ idx executed stmts a, a ∈ (execLoop env idx executed stmts).1 →
      ∃ s, a = DbAction.execStmt s
  | _, _, [], _, ha => by simp [execLoop] at ha
  | idx, executed, s :: rest, a, ha => by
    rw [execLoop] at ha
    cases h : env.outcome idx s with
    | ok =>
        rw [h] at ha
        simp at ha
        rcases ha with ha | ha
        · exact ⟨s, ha⟩
        · exact execLoop_actions env (idx + 1) (executed + 1) rest a ha
    | dbError p c f =>
        rw [h] at ha
        simp at ha
        exact ⟨s, ha⟩
    | raised m =>
        rw [h] at ha
        simp at ha
        exact ⟨s, ha⟩

/-- Every action emitted inside the verify transaction is `BEGIN` or a
statement execution — never a commit. -/
theorem runVerifyTx_actions (env : DbEnv) (executable : List String) (a : DbAction)
    (ha : a ∈ (runVerifyTx env executable).1) :
    a = DbAction.begin ∨ ∃ s, a = DbAction.execStmt s := by
  rw [runVerifyTx] at ha
  cases h : env.outcome 0 "BEGIN" with
  | ok =>
      rw [h] at ha
      simp at ha
      rcases ha with ha | ha
      · exact Or.inl ha
      · exact Or.inr (execLoop_actions env 1 0 executable a ha)
  | dbError p c f =>
      rw [h] at ha
      simp at ha
      exact Or.inl ha
  | raised m =>
      rw [h] at ha
      simp at ha
      exact Or.inl ha

/-- The trace of a verification call is empty (guard returns), a bare
connection attempt, or a full transaction ending in the rollback. -/
theorem verify_sql_trace (cfg : VerifierConfig)
    (parse : String → Except String (List SqlStmt)) (env : DbEnv) (sql_script : String) :
    (verify_sql cfg parse env sql_script).1 = [] ∨
    (verify_sql cfg parse env sql_script).1 = [DbAction.connect] ∨
    ∃ executable, (verify_sql cfg parse env sql_script).1
        = DbAction.connect :: (runVerifyTx env executable).1 ++ [DbAction.rollback] := by
  unfold verify_sql
  split
  · exact Or.inl rfl
  · split
    · exact Or.inl rfl
    · split
      · exact Or.inl rfl
      · split
        · exact Or.inr (Or.inl rfl)
        · exact Or.inr (Or.inr ⟨_, rfl⟩)

/-- **C1.** Every verification call that reaches execution (its trace
contains the explicit `BEGIN`) terminates the transaction with an explicit
rollback as the final database action, and never issues a commit —
regardless of success, database error, or any other exception. -/
theorem c1_rollback_invariant (cfg : VerifierConfig)
    (parse : String → Except String (List SqlStmt)) (env : DbEnv) (sql_script : String)
    (h : DbAction.begin ∈ (verify_sql cfg parse env sql_script).1) :
    (verify_sql cfg parse env sql_script).1.getLast? = some DbAction.rollback ∧
    DbAction.commit ∉ (verify_sql cfg parse env sql_script).1 := by
  rcases verify_sql_trace cfg parse env sql_script with ht | ht | ⟨executable, ht⟩
  · rw [ht] at h; simp at h
  · rw [ht] at h; simp at h
  · rw [ht]
    constructor
    · rw [show DbAction.connect :: (runVerifyTx env executable).1 ++ [DbAction.rollback]
          = (DbAction.connect :: (runVerifyTx env executable).1) ++ [DbAction.rollback] from rfl]
      exact List.getLast?_concat _
    · intro hc
      have hc' : DbAction.commit = DbAction.connect ∨
          DbAction.commit ∈ (runVerifyTx env executable).1 ∨
          DbAction.commit ∈ [DbAction.rollback] := by simpa using hc
      rcases hc' with h1 | h2 | h3
      · exact DbAction.noConfusion h1
      · rcases runVerifyTx_actions env executable _ h2 with h4 | ⟨s, h4⟩
        · exact DbAction.noConfusion h4
        · exact DbAction.noConfusion h4
      · rw [List.mem_singleton] at h3
        exact DbAction.noConfusion h3

/-- A sample parse oracle: the script parses to the single statement
`SELECT 1`. -/
def demoParse : String → Except String (List SqlStmt) := fun _ => .ok [selectOneStmt]

/-- A sample database environment: connection succeeds and every statement
executes cleanly. -/
def demoEnv : DbEnv := ⟨none, fun _ _ => .ok⟩

/-- Witness for C1: a concrete verification call whose trace reaches
execution. -/
theorem c1_rollback_invariant_witness :
    DbAction.begin ∈ (verify_sql {} demoParse demoEnv "SELECT 1").1 ∧
    ((verify_sql {} demoParse demoEnv "SELECT 1").1.getLast? = some DbAction.rollback ∧
      DbAction.commit ∉ (verify_sql {} demoParse demoEnv "SELECT 1").1) :=
  ⟨by decide, c1_rollback_invariant {} demoParse demoEnv "SELECT 1" (by decide)⟩

/-- **C10.** An empty or all-whitespace script makes both `verify_sql` and
`apply_sql` return a failure with error `Empty SQL script`, with an empty
action trace: no connection is opened and nothing executes. -/
theorem c10_empty_script (cfg : VerifierConfig)
    (parse : String → Except String (List SqlStmt)) (env : DbEnv) (sql_script : String)
    (h : pyStrip sql_script = "") :
    verify_sql cfg parse env sql_script
        = ([], ⟨false, some "Empty SQL script", [], 0, none⟩) ∧
    apply_sql cfg parse env sql_script
        = ([], ⟨false, some "Empty SQL script", [], 0, none⟩) := by
  constructor
  · unfold verify_sql; rw [if_pos (Or.inr h)]
  · unfold apply_sql; rw [if_pos (Or.inr h)]

/-! ## Migration workflow (`agents/workflow.py`)

The langgraph state machine is embedded as an explicit step function over
graph nodes.  The external services (sqlglot transpile/parse, the LLM
review and rewrite calls, the context builder, the database verifier) are
oracle fields of `WServices`. -/

/-- `AgentState` TypedDict. -/
structure AgentState where
  file_path : String
  source_sql : String
  target_sql : Option String
  status : String
  error_msg : Option String
  retry_count : Nat
  rag_context : Option String
  schema_refs : List String
  skipped_statements : List String
  executed_statements : Nat
deriving DecidableEq, Repr

/-- Workflow configuration: `config["project"]["max_retries"]`. -/
structure WConfig where
  max_retries : Nat
deriving DecidableEq, Repr

/-- The external collaborators the workflow sequences. -/
structure WServices where
  /-- `sqlglot.transpile(...)[0]`; `.error` is the raised exception text. -/
  transpile : String → Except String String
  /-- The reviewer LLM response for the candidate SQL. -/
  review : Option String → String
  /-- The rewrite LLM response for `(rag_context, current_sql, error_msg)`. -/
  rewrite : String → Option String → Option String → String
  /-- `sqlglot.parse(cleaned, read=target)` re-serialized per statement;
  `none` models a raised parse error, `some []` an empty parse. -/
  parseTarget : String → Option (List String)
  /-- `rag.build_context(source_sql)`: the context text and the sorted
  referenced schemas. -/
  buildContext : String → String × List String
  /-- `verifier.verify_sql(target_sql)`. -/
  verify : Option String → VerificationResult

/-- Nodes of the compiled langgraph, plus the END sentinel. -/
inductive WNode where
  | transpiler
  | reviewer
  | verifier
  | converter
  | failNode
  | finish
deriving DecidableEq, Repr

/-- Instrumentation: how often the converter node ran and how often it
invoked the context builder. -/
structure RunStats where
  converter_calls : Nat := 0
  builder_calls : Nat := 0
deriving DecidableEq, Repr

/-- `MigrationWorkflow.transpiler_node`. -/
def transpiler_node (svc : WServices) (s : AgentState) : AgentState :=
  match svc.transpile s.source_sql with
  | .ok transpiled => { s with target_sql := some transpiled, status := "PENDING" }
  | .error e =>
      { s with target_sql := some s.source_sql, error_msg := some e, status := "FAILED" }

/-- The PASS test of `reviewer_node`: first line of the stripped response,
stripped and upper-cased, starts with `PASS`. -/
def review_verdict (response : String) : Bool :=
  let first_line := if response = "" then "" else pyUpper (pyStrip (pyFirstLine response))
  pyStartswith first_line "PASS"

/-- `MigrationWorkflow.reviewer_node`. -/
def reviewer_node (svc : WServices) (s : AgentState) : AgentState :=
  let response := pyStrip (svc.review s.target_sql)
  if review_verdict response then { s with status := "REVIEW_PASS" }
  else { s with status := "REVIEW_FAIL", error_msg := some response }

/-- `MigrationWorkflow.verifier_node`. -/
def verifier_node (svc : WServices) (s : AgentState) : AgentState :=
  let result := svc.verify s.target_sql
  if result.success then
    { s with status := "DONE", error_msg := result.notes,
             skipped_statements := result.skipped_statements,
             executed_statements := result.executed_statements }
  else
    { s with status := "VERIFY_FAIL", error_msg := result.error,
             skipped_statements := result.skipped_statements,
             executed_statements := result.executed_statements }

/-- First index at which `sub` occurs in the character list (regex-search
helper for `_extract_sql`). -/
def findSubAux (sub : List Char) : List Char → Nat → Option Nat
  | [], i => if sub.isPrefixOf [] then some i else none
  | c :: rest, i =>
      if sub.isPrefixOf (c :: rest) then some i else findSubAux sub rest (i + 1)

/-- Python `s.replace(old, new)` (for nonempty `old`), structurally
recursive via a skip counter over already-matched characters. -/
def replaceAllGo (old new : List Char) : List Char → Nat → List Char
  | [], _ => []
  | _ :: rest, skip + 1 => replaceAllGo old new rest skip
  | c :: rest, 0 =>
      if old ≠ [] ∧ old.isPrefixOf (c :: rest) then
        new ++ replaceAllGo old new rest (old.length - 1)
      else c :: replaceAllGo old new rest 0

/-- Python `s.replace(old, new)` on strings. -/
def pyReplaceAll (s old new : String) : String := ⟨replaceAllGo old.data new.data s.data 0⟩

/-- `MigrationWorkflow._extract_sql`: take the body of the first fenced
code block (` ``` ` optionally followed by a case-insensitive `sql` tag and
whitespace, up to the closing fence); otherwise delete the fence markup and
strip. -/
def extract_sql (response : String) : String :=
  if response = "" then ""
  else
    let fence := "```".data
    let fallback :=
      pyStrip (pyReplaceAll (pyReplaceAll response "```sql" "") "```" "")
    match findSubAux fence response.data 0 with
    | some i =>
        let afterFence := response.data.drop (i + 3)
        let afterTag :=
          if ['s', 'q', 'l'].isPrefixOf (afterFence.map Char.toLower) then afterFence.drop 3
          else afterFence
        let body := afterTag.dropWhile Char.isWhitespace
        match findSubAux fence body 0 with
        | some j => pyStrip ⟨body.take j⟩
        | none => fallback
    | none => fallback

/-- Python `";\n".join(parts)` (generalized separator). -/
def joinSep (sep : String) : List String → String
  | [] => ""
  | s :: rest => rest.foldl (fun acc x => acc ++ sep ++ x) s

/-- `MigrationWorkflow.converter_node`.  The returned flag records whether
the context builder was invoked (`if not context:` — Python truthiness, so
a cached *empty* document does not count as cached). -/
def converter_node (svc : WServices) (s : AgentState) : AgentState × Bool :=
  let cached := s.rag_context.getD ""
  let needBuild := cached = ""
  let built := svc.buildContext s.source_sql
  let context := if needBuild then built.1 else cached
  let schema_refs := if needBuild then built.2 else s.schema_refs
  let response := svc.rewrite context s.target_sql s.error_msg
  let cleaned_sql := extract_sql response
  let normalized_sql :=
    match svc.parseTarget cleaned_sql with
    | some (stmt :: rest) => joinSep ";\n" (stmt :: rest)
    | some [] => cleaned_sql
    | none => cleaned_sql
  ({ s with target_sql := some normalized_sql,
            retry_count := s.retry_count + 1,
            rag_context := some context,
            schema_refs := schema_refs },
   needBuild)

/-- `MigrationWorkflow.check_review`. -/
def check_review (s : AgentState) : String :=
  if s.status = "REVIEW_PASS" then "pass" else "fail"

/-- `MigrationWorkflow.check_verification`. -/
def check_verification (s : AgentState) : String :=
  if s.status = "DONE" then "success" else "fail"

/-- `MigrationWorkflow.check_retry`. -/
def check_retry (cfg : WConfig) (s : AgentState) : String :=
  if s.retry_count < cfg.max_retries then "retry" else "abort"

/-- `MigrationWorkflow.fail_node`. -/
def fail_node (cfg : WConfig) (s : AgentState) : AgentState :=
  let max_retry_msg :=
    "Reached max retries (" ++ toString cfg.max_retries ++ ") without passing verification."
  let error_msg := pyOr s.error_msg max_retry_msg
  let error_msg :=
    if error_msg ≠ "" ∧ pyContains error_msg max_retry_msg = false then
      error_msg ++ " | " ++ max_retry_msg
    else error_msg
  { s with status := "FAILED", error_msg := some error_msg }

/-- One transition of the compiled graph of `_build_graph`: run the node's
function, then follow its (conditional) edge.  Note the edge out of the
transpiler is unconditional (`add_edge("transpiler", "reviewer")`). -/
def stepW (cfg : WConfig) (svc : WServices) :
    WNode → AgentState → RunStats → WNode × AgentState × RunStats
  | .transpiler, s, st => (.reviewer, transpiler_node svc s, st)
  | .reviewer, s, st =>
      let s2 := reviewer_node svc s
      (if check_review s2 = "pass" then .verifier else .converter, s2, st)
  | .verifier, s, st =>
      let s2 := verifier_node svc s
      (if check_verification s2 = "success" then .finish else .converter, s2, st)
  | .converter, s, st =>
      let r := converter_node svc s
      (if check_retry cfg r.1 = "retry" then .reviewer else .failNode, r.1,
       ⟨st.converter_calls + 1, st.builder_calls + (if r.2 then 1 else 0)⟩)
  | .failNode, s, st => (.finish, fail_node cfg s, st)
  | .finish, s, st => (.finish, s, st)

/-- Fuelled execution of the graph from a node until END. -/
def runW (cfg : WConfig) (svc : WServices) :
    Nat → WNode → AgentState → RunStats → Option (AgentState × RunStats)
  | 0, _, _, _ => none
  | fuel + 1, node, s, st =>
      if node = .finish then some (s, st)
      else
        let r := stepW cfg svc node s st
        runW cfg svc fuel r.1 r.2.1 r.2.2

/-- Status, retry count and number of corrective passes of a terminated
run. -/
def runOutcome (cfg : WConfig) (svc : WServices) (fuel : Nat) (node : WNode)
    (s : AgentState) (st : RunStats) : Option (String × Nat × Nat) :=
  (runW cfg svc fuel node s st).map fun r => (r.1.status, r.1.retry_count, r.2.converter_calls)

/-- Context-builder invocations of a run (the starting count if the fuel
runs out). -/
def runBuilderCalls (cfg : WConfig) (svc : WServices) (fuel : Nat) (node : WNode)
    (s : AgentState) (st : RunStats) : Nat :=
  match runW cfg svc fuel node s st with
  | some r => r.2.builder_calls
  | none => st.builder_calls

/-- The initial state a batch run passes to `app.invoke` (`main.py`), for
an asset whose context was not pre-computed. -/
def initState (file source : String) : AgentState :=
  ⟨file, source, none, "PENDING", none, 0, none, [], [], 0⟩

theorem runW_finish (cfg : WConfig) (svc : WServices) (fuel : Nat)
    (s : AgentState) (st : RunStats) :
    runW cfg svc (fuel + 1) .finish s st = some (s, st) := by
  rw [runW]; simp

theorem runW_step (cfg : WConfig) (svc : WServices) (fuel : Nat) (node : WNode)
    (s : AgentState) (st : RunStats) (h : node ≠ WNode.finish) :
    runW cfg svc (fuel + 1) node s st
      = runW cfg svc fuel (stepW cfg svc node s st).1
          (stepW cfg svc node s st).2.1 (stepW cfg svc node s st).2.2 := by
  rw [runW]; simp [h]

theorem reviewer_node_fail (svc : WServices) (s : AgentState)
    (hrev : review_verdict (pyStrip (svc.review s.target_sql)) = false) :
    reviewer_node svc s
      = { s with status := "REVIEW_FAIL",
                 error_msg := some (pyStrip (svc.review s.target_sql)) } := by
  unfold reviewer_node
  simp [hrev]

theorem stepW_reviewer_fail (cfg : WConfig) (svc : WServices) (s : AgentState) (st : RunStats)
    (hrev : review_verdict (pyStrip (svc.review s.target_sql)) = false) :
    stepW cfg svc .reviewer s st
      = (.converter,
         { s with status := "REVIEW_FAIL",
                  error_msg := some (pyStrip (svc.review s.target_sql)) },
         st) := by
  show (if check_review (reviewer_node svc s) = "pass" then WNode.verifier else .converter,
        reviewer_node svc s, st) = _
  rw [reviewer_node_fail svc s hrev]
  simp [check_review]

/-- Corrective passes always bump the retry counter by exactly one. -/
theorem converter_node_retry (svc : WServices) (s : AgentState) :
    (converter_node svc s).1.retry_count = s.retry_count + 1 := rfl

theorem stepW_converter (cfg : WConfig) (svc : WServices) (s : AgentState) (st : RunStats) :
    stepW cfg svc .converter s st
      = (if check_retry cfg (converter_node svc s).1 = "retry" then .reviewer else .failNode,
         (converter_node svc s).1,
         ⟨st.converter_calls + 1,
          st.builder_calls + (if (converter_node svc s).2 then 1 else 0)⟩) := rfl

theorem stepW_failNode (cfg : WConfig) (svc : WServices) (s : AgentState) (st : RunStats) :
    stepW cfg svc .failNode s st = (.finish, fail_node cfg s, st) := rfl

/-- In a run whose review step always fails, starting from the review node
with `r + 1` corrective attempts left before the bound, the workflow
terminates FAILED at the bound after exactly `r + 1` further corrective
passes. -/
theorem runW_alwaysFail (cfg : WConfig) (svc : WServices)
    (hrev : ∀ q, review_verdict (pyStrip (svc.review q)) = false) :
    ∀ (r : Nat) (s : AgentState) (st : RunStats),
      s.retry_count + (r + 1) = cfg.max_retries →
      runOutcome cfg svc (2 * r + 4) .reviewer s st
        = some ("FAILED", cfg.max_retries, st.converter_calls + (r + 1))
  | 0, s, st, hk => by
    unfold runOutcome
    rw [show 2 * 0 + 4 = 3 + 1 from rfl,
        runW_step cfg svc 3 .reviewer s st (by decide),
        stepW_reviewer_fail cfg svc s st (hrev _)]
    set s2 : AgentState :=
      { s with status := "REVIEW_FAIL",
               error_msg := some (pyStrip (svc.review s.target_sql)) } with hs2
    rw [show (3 : Nat) = 2 + 1 from rfl,
        runW_step cfg svc 2 .converter s2 st (by decide), stepW_converter]
    have h2 : s2.retry_count = s.retry_count := rfl
    have hcr : check_retry cfg (converter_node svc s2).1 = "abort" := by
      unfold check_retry
      rw [converter_node_retry, h2, show s.retry_count + 1 = cfg.max_retries from by omega]
      simp
    rw [hcr, if_neg (by decide)]
    rw [show (2 : Nat) = 1 + 1 from rfl,
        runW_step cfg svc 1 .failNode _ _ (by decide), stepW_failNode]
    rw [show (1 : Nat) = 0 + 1 from rfl, runW_finish]
    have hretr : (fail_node cfg (converter_node svc s2).1).retry_count = cfg.max_retries := by
      rw [show (fail_node cfg (converter_node svc s2).1).retry_count
            = (converter_node svc s2).1.retry_count from rfl, converter_node_retry, h2]
      omega
    simp only [Option.map_some', hretr]
    rfl
  | r + 1, s, st, hk => by
    unfold runOutcome
    rw [show 2 * (r + 1) + 4 = (2 * r + 5) + 1 from by omega,
        runW_step cfg svc (2 * r + 5) .reviewer s st (by decide),
        stepW_reviewer_fail cfg svc s st (hrev _)]
    set s2 : AgentState :=
      { s with status := "REVIEW_FAIL",
               error_msg := some (pyStrip (svc.review s.target_sql)) } with hs2
    rw [show 2 * r + 5 = (2 * r + 4) + 1 from rfl,
        runW_step cfg svc (2 * r + 4) .converter s2 st (by decide), stepW_converter]
    have h2 : s2.retry_count = s.retry_count := rfl
    have hcr : check_retry cfg (converter_node svc s2).1 = "retry" := by
      unfold check_retry
      rw [converter_node_retry, h2, if_pos (by omega)]
    rw [hcr, if_pos rfl]
    have hk2 : (converter_node svc s2).1.retry_count + (r + 1) = cfg.max_retries := by
      rw [converter_node_retry, h2]
      omega
    have ih := runW_alwaysFail cfg svc hrev r (converter_node svc s2).1
      ⟨st.converter_calls + 1,
       st.builder_calls + (if (converter_node svc s2).2 then 1 else 0)⟩ hk2
    unfold runOutcome at ih
    rw [ih]
    have harith : st.converter_calls + 1 + (r + 1) = st.converter_calls + (r + 1 + 1) := by omega
    rw [harith]

/-- **C3.** With `max_retries = N ≥ 1` and a review step that always
fails, a workflow run from the start node terminates in status FAILED with
`retry_count = N` after exactly `N` corrective passes — never `N + 1`. -/
theorem c3_bounded_retry (cfg : WConfig) (svc : WServices) (s : AgentState)
    (hN : 1 ≤ cfg.max_retries) (h0 : s.retry_count = 0)
    (hrev : ∀ q, review_verdict (pyStrip (svc.review q)) = false) :
    runOutcome cfg svc (2 * cfg.max_retries + 3) .transpiler s ⟨0, 0⟩
      = some ("FAILED", cfg.max_retries, cfg.max_retries) := by
  obtain ⟨r, hr⟩ : ∃ r, cfg.max_retries = r + 1 := ⟨cfg.max_retries - 1, by omega⟩
  have hret : (transpiler_node svc s).retry_count = s.retry_count := by
    unfold transpiler_node
    cases svc.transpile s.source_sql <;> rfl
  unfold runOutcome
  rw [show 2 * cfg.max_retries + 3 = (2 * r + 4) + 1 from by omega,
      runW_step cfg svc (2 * r + 4) .transpiler s ⟨0, 0⟩ (by decide)]
  have ih := runW_alwaysFail cfg svc hrev r (transpiler_node svc s) ⟨0, 0⟩
    (by rw [hret, h0]; omega)
  unfold runOutcome at ih
  show (runW cfg svc (2 * r + 4) .reviewer (transpiler_node svc s) ⟨0, 0⟩).map _ = _
  rw [ih, hr]
  simp

/-- A sample service bundle: transpile succeeds, review always fails,
verification fails, the context builder returns a non-empty document. -/
def demoSvc : WServices :=
  { transpile := fun sql => .ok sql
    review := fun _ => "FAIL: incorrect cast"
    rewrite := fun _ _ _ => "SELECT 2"
    parseTarget := fun sql => some [sql]
    buildContext := fun _ => ("-- ctx", ["S1"])
    verify := fun _ => ⟨false, some "err", [], 0, none⟩ }

/-- Witness for C3 with `max_retries = 2`. -/
theorem c3_bounded_retry_witness :
    1 ≤ (2 : Nat) ∧
    runOutcome ⟨2⟩ demoSvc (2 * 2 + 3) .transpiler (initState "a.sql" "SELECT 1") ⟨0, 0⟩
      = some ("FAILED", 2, 2) :=
  ⟨by decide,
   c3_bounded_retry ⟨2⟩ demoSvc (initState "a.sql" "SELECT 1") (by decide) rfl
     (fun _ => by rfl)⟩

/-- **C4 counterexample.** With `max_retries = 1`, a corrective pass that
raises `retry_count` to `1` satisfies `retryCount ≤ maxRetries`, yet the
controller transitions to the fail node, not back to review — refuting the
claim's `retryCount ≤ maxRetries → review` boundary. -/
theorem c4_counterexample :
    (stepW ⟨1⟩ demoSvc .converter (initState "a.sql" "SELECT 1") ⟨0, 0⟩).2.1.retry_count
        = 1 ∧
    (stepW ⟨1⟩ demoSvc .converter (initState "a.sql" "SELECT 1") ⟨0, 0⟩).2.1.retry_count
        ≤ (1 : Nat) ∧
    (stepW ⟨1⟩ demoSvc .converter (initState "a.sql" "SELECT 1") ⟨0, 0⟩).1
        = WNode.failNode := by
  decide

/-- **C4 (amended).** After a corrective pass increments `retryCount`, the
controller transitions back to review exactly when `retryCount <
maxRetries` (strict), and toward FAILED exactly when `retryCount ≥
maxRetries`. -/
theorem c4_retry_boundary_amended (cfg : WConfig) (svc : WServices)
    (s : AgentState) (st : RunStats) :
    (stepW cfg svc .converter s st).2.1.retry_count = s.retry_count + 1 ∧
    ((stepW cfg svc .converter s st).1 = WNode.reviewer ↔
      s.retry_count + 1 < cfg.max_retries) ∧
    ((stepW cfg svc .converter s st).1 = WNode.failNode ↔
      cfg.max_retries ≤ s.retry_count + 1) := by
  have hnode : (stepW cfg svc .converter s st).1
      = (if s.retry_count + 1 < cfg.max_retries then WNode.reviewer else .failNode) := by
    rw [stepW_converter]
    show (if check_retry cfg (converter_node svc s).1 = "retry"
          then WNode.reviewer else .failNode) = _
    unfold check_retry
    rw [converter_node_retry]
    by_cases h : s.retry_count + 1 < cfg.max_retries
    · rw [if_pos h, if_pos rfl, if_pos h]
    · rw [if_neg h, if_neg (by decide), if_neg h]
  have hretry : (stepW cfg svc .converter s st).2.1.retry_count = s.retry_count + 1 := by
    rw [stepW_converter]
    exact converter_node_retry svc s
  refine ⟨hretry, ?_, ?_⟩
  · rw [hnode]
    by_cases h : s.retry_count + 1 < cfg.max_retries
    · simp [h]
    · simp [h]
  · rw [hnode]
    by_cases h : s.retry_count + 1 < cfg.max_retries
    · simp only [if_pos h]
      constructor
      · intro hx
        exact absurd hx (by decide)
      · intro hx
        omega
    · simp only [if_neg h]
      constructor
      · intro _
        omega
      · intro _
        trivial

/-- Services whose transpilation raises; review still always fails. -/
def c5Svc : WServices :=
  { demoSvc with transpile := fun _ => .error "ParseError: invalid source SQL" }

/-- **C5 (code bug).** After a transpile failure the graph still follows
the unconditional transpiler → reviewer edge (the status FAILED that
`transpiler_node` writes is carried into the review node and then
overwritten), and the corrective-rewrite step runs (`converter_calls = 1`)
before retry exhaustion finally yields FAILED — the workflow is not
terminal immediately on a transpile error. -/
theorem c5_transpile_not_terminal :
    (stepW ⟨1⟩ c5Svc .transpiler (initState "a.sql" "SELECT 1") ⟨0, 0⟩).1
        = WNode.reviewer ∧
    (stepW ⟨1⟩ c5Svc .transpiler (initState "a.sql" "SELECT 1") ⟨0, 0⟩).2.1.status
        = "FAILED" ∧
    (runW ⟨1⟩ c5Svc 7 .transpiler (initState "a.sql" "SELECT 1") ⟨0, 0⟩).map
        (fun r => (r.1.status, r.2.converter_calls)) = some ("FAILED", 1) := by
  decide

/-- Services whose context builder yields an empty document. -/
def c6Svc : WServices := { demoSvc with buildContext := fun _ => ("", []) }

/-- **C6 counterexample.** A run with two corrective passes whose context
document is empty invokes the context builder twice: the cached empty
document fails Python's `if not context:` truthiness test, so it is not
reused. -/
theorem c6_counterexample :
    (runW ⟨2⟩ c6Svc 9 .transpiler (initState "a.sql" "SELECT 1") ⟨0, 0⟩).map
        (fun r => r.2.builder_calls) = some 2 := by
  decide

theorem transpiler_node_fields (svc : WServices) (s : AgentState) :
    (transpiler_node svc s).source_sql = s.source_sql ∧
    (transpiler_node svc s).rag_context = s.rag_context := by
  unfold transpiler_node
  cases svc.transpile s.source_sql <;> exact ⟨rfl, rfl⟩

theorem reviewer_node_fields (svc : WServices) (s : AgentState) :
    (reviewer_node svc s).source_sql = s.source_sql ∧
    (reviewer_node svc s).rag_context = s.rag_context := by
  unfold reviewer_node
  dsimp only
  split <;> exact ⟨rfl, rfl⟩

theorem verifier_node_fields (svc : WServices) (s : AgentState) :
    (verifier_node svc s).source_sql = s.source_sql ∧
    (verifier_node svc s).rag_context = s.rag_context := by
  unfold verifier_node
  dsimp only
  split <;> exact ⟨rfl, rfl⟩

theorem fail_node_fields (cfg : WConfig) (s : AgentState) :
    (fail_node cfg s).source_sql = s.source_sql ∧
    (fail_node cfg s).rag_context = s.rag_context := ⟨rfl, rfl⟩

theorem converter_node_source (svc : WServices) (s : AgentState) :
    (converter_node svc s).1.source_sql = s.source_sql := rfl

theorem converter_node_rag (svc : WServices) (s : AgentState) :
    (converter_node svc s).1.rag_context
      = some (if s.rag_context.getD "" = "" then (svc.buildContext s.source_sql).1
              else s.rag_context.getD "") := rfl

theorem converter_node_flag (svc : WServices) (s : AgentState) :
    ((converter_node svc s).2 = true) ↔ s.rag_context.getD "" = "" := by
  unfold converter_node
  simp

/-- Builder-call bound: once a non-empty context document is available (or
will be produced by the first build), a run performs at most one further
builder invocation. -/
theorem runW_builder_bound (cfg : WConfig) (svc : WServices) :
    ∀ (fuel : Nat) (node : WNode) (s : AgentState) (st : RunStats),
      (svc.buildContext s.source_sql).1 ≠ "" →
      runBuilderCalls cfg svc fuel node s st
        ≤ st.builder_calls + (if s.rag_context.getD "" = "" then 1 else 0)
  | 0, node, s, st, _ => by
    unfold runBuilderCalls
    rw [runW]
    exact Nat.le_add_right _ _
  | fuel + 1, node, s, st, h => by
    by_cases hfin : node = WNode.finish
    · subst hfin
      unfold runBuilderCalls
      rw [runW_finish]
      exact Nat.le_add_right _ _
    · unfold runBuilderCalls
      rw [runW_step cfg svc fuel node s st hfin]
      have key : ∀ (n2 : WNode) (s2 : AgentState) (st2 : RunStats),
          s2.source_sql = s.source_sql →
          st2.builder_calls + (if s2.rag_context.getD "" = "" then 1 else 0)
            ≤ st.builder_calls + (if s.rag_context.getD "" = "" then 1 else 0) →
          (match runW cfg svc fuel n2 s2 st2 with
            | some r => r.2.builder_calls
            | none => st.builder_calls)
            ≤ st.builder_calls + (if s.rag_context.getD "" = "" then 1 else 0) := by
        intro n2 s2 st2 hsrc hle
        have hb := runW_builder_bound cfg svc fuel n2 s2 st2 (by rw [hsrc]; exact h)
        unfold runBuilderCalls at hb
        cases hrun : runW cfg svc fuel n2 s2 st2 with
        | none => exact Nat.le_add_right _ _
        | some r =>
            rw [hrun] at hb
            exact le_trans hb hle
      cases node with
      | finish => exact absurd rfl hfin
      | transpiler =>
          exact key _ (transpiler_node svc s) st (transpiler_node_fields svc s).1
            (le_of_eq (by rw [(transpiler_node_fields svc s).2]))
      | reviewer =>
          exact key _ (reviewer_node svc s) st (reviewer_node_fields svc s).1
            (le_of_eq (by rw [(reviewer_node_fields svc s).2]))
      | verifier =>
          exact key _ (verifier_node svc s) st (verifier_node_fields svc s).1
            (le_of_eq (by rw [(verifier_node_fields svc s).2]))
      | failNode =>
          exact key _ (fail_node cfg s) st (fail_node_fields cfg s).1
            (le_of_eq (by rw [(fail_node_fields cfg s).2]))
      | converter =>
          refine key _ (converter_node svc s).1
            ⟨st.converter_calls + 1,
             st.builder_calls + (if (converter_node svc s).2 then 1 else 0)⟩
            (converter_node_source svc s) ?_
          by_cases hc : s.rag_context.getD "" = ""
          · have hflag : (converter_node svc s).2 = true := (converter_node_flag svc s).mpr hc
            simp only [converter_node_rag, hflag, Option.getD_some, hc]
            simp [h]
          · have hflag : (converter_node svc s).2 = false := by
              cases hx : (converter_node svc s).2 with
              | false => rfl
              | true => exact absurd ((converter_node_flag svc s).mp hx) hc
            simp only [converter_node_rag, hflag, Option.getD_some]
            simp [hc]

/-- **C6 (amended).** If the context document built for the asset's source
is non-empty, then starting with no cached context the workflow invokes
the Context Builder at most once: the first corrective pass caches the
document and every later corrective pass reuses it. -/
theorem c6_lazy_context_amended (cfg : WConfig) (svc : WServices) (fuel : Nat)
    (s : AgentState) (h1 : (svc.buildContext s.source_sql).1 ≠ "")
    (h2 : s.rag_context = none) :
    runBuilderCalls cfg svc fuel .transpiler s ⟨0, 0⟩ ≤ 1 := by
  have hb := runW_builder_bound cfg svc fuel .transpiler s ⟨0, 0⟩ h1
  rw [h2] at hb
  simpa using hb

/-- Witness for C6 (amended): with a non-empty context document and two
corrective passes, the builder runs exactly once (so at most once). -/
theorem c6_lazy_context_amended_witness :
    ((demoSvc.buildContext (initState "a.sql" "SELECT 1").source_sql).1 ≠ "" ∧
      (initState "a.sql" "SELECT 1").rag_context = none) ∧
    runBuilderCalls ⟨2⟩ demoSvc 9 .transpiler (initState "a.sql" "SELECT 1") ⟨0, 0⟩ ≤ 1 :=
  ⟨⟨by decide, rfl⟩,
   c6_lazy_context_amended ⟨2⟩ demoSvc 9 (initState "a.sql" "SELECT 1") (by decide) rfl⟩

/-- Witness for C10 at the whitespace-only script `" \n\t "`. -/
theorem c10_empty_script_witness :
    pyStrip " \n\t " = "" ∧
    verify_sql {} demoParse demoEnv " \n\t "
        = ([], ⟨false, some "Empty SQL script", [], 0, none⟩) ∧
    apply_sql {} demoParse demoEnv " \n\t "
        = ([], ⟨false, some "Empty SQL script", [], 0, none⟩) :=
  ⟨by decide,
   (c10_empty_script {} demoParse demoEnv " \n\t " (by decide)).1,
   (c10_empty_script {} demoParse demoEnv " \n\t " (by decide)).2⟩

/-! ## Dependency analysis (`context_builder.py` / `code_analysis.py`)

sqlglot's `build_scope`/`traverse` machinery is embedded as an explicit
scope tree; `_extract_references` and `DependencyAnalyzer.analyze` walk it
with identical CTE-shadowing logic. -/

/-- One node of sqlglot's lexical scope tree: the CTE names defined by the
scope's WITH clause (`scope.ctes`, as `alias_or_name`), the `exp.Table`
sources of the scope (`scope.sources` values that are tables, as
`(name, db-schema)`), and the child scopes reached by `traverse` (CTE
bodies, subqueries, derived tables). -/
inductive SqlScope where
  | mk (ctes : List String) (tables : List (String × Option String)) (children : List SqlScope)

mutual

/-- The scope walk of `_extract_references`: a table source is kept only
when its upper-cased name is not among the upper-cased CTE names of its
own scope or any ancestor scope (`while current: ... current =
current.parent`). -/
def collectScopeRefs (anc : List String) : SqlScope → List (String × Option String)
  | .mk ctes tables children =>
      tables.filter
        (fun t => !(((ctes ++ anc).map pyUpper).contains (pyUpper t.1)))
        ++ collectScopeRefsList (ctes ++ anc) children

def collectScopeRefsList (anc : List String) : List SqlScope → List (String × Option String)
  | [] => []
  | c :: cs => collectScopeRefs anc c ++ collectScopeRefsList anc cs

end

/-- One parsed statement as `_extract_references` sees it: the scope root
(`build_scope`, `none` when scope construction fails), the flat
`find_all(exp.Table)` fallback list, and the function names collected from
`find_all(exp.Func)` (after `sql_name()` / ANONYMOUS resolution). -/
structure ParsedStmt where
  scopeRoot : Option SqlScope
  allTables : List (String × Option String)
  funcs : List String

/-- `_add_table_ref`: record the upper-cased table name (if non-empty) and
the upper-cased schema qualifier (if present and non-empty). -/
def add_table_ref (t : String × Option String) (acc : Finset String × Finset String) :
    Finset String × Finset String :=
  let refs := if t.1 ≠ "" then insert (pyUpper t.1) acc.1 else acc.1
  let schemas :=
    match t.2 with
    | some d => if d ≠ "" then insert (pyUpper d) acc.2 else acc.2
    | none => acc.2
  (refs, schemas)

/-- Per-statement reference extraction: scope-based table collection (with
the flat fallback), then function names, which are always added. -/
def extractStmtRefs (p : ParsedStmt) (acc : Finset String × Finset String) :
    Finset String × Finset String :=
  let tableRefs :=
    match p.scopeRoot with
    | none => p.allTables
    | some root => collectScopeRefs [] root
  let acc2 := tableRefs.foldl (fun a t => add_table_ref t a) acc
  let refs := p.funcs.foldl (fun r f => if f ≠ "" then insert (pyUpper f) r else r) acc2.1
  (refs, acc2.2)

/-- `RAGContextBuilder._extract_references` / `DependencyAnalyzer.analyze`
over the parsed statements of a script: the referenced-name set and the
referenced-schema set. -/
def extract_references (stmts : List ParsedStmt) : Finset String × Finset String :=
  stmts.foldl (fun acc p => extractStmtRefs p acc) (∅, ∅)

/-- sqlglot's scope tree for
`WITH cte AS (SELECT 1) SELECT * FROM cte JOIN real_table`: the root scope
defines CTE `cte`; its table sources contain `real_table` (the `cte`
source resolves to a scope, not a table); the CTE body is a child scope
with no table sources. -/
def cteExampleScope : SqlScope := .mk ["cte"] [("real_table", none)] [.mk [] [] []]

/-- The parsed statement for the C8 example script. -/
def cteExampleStmt : ParsedStmt :=
  ⟨some cteExampleScope, [("cte", none), ("real_table", none)], []⟩

/-- A table occurrence inside a scope tree together with the list of CTE
names visible at that occurrence (its own scope's CTEs and those of every
ancestor scope). -/
inductive ScopeOcc : List String → SqlScope → (String × Option String) → List String → Prop
  | here {anc : List String} {ctes : List String}
      {tables : List (String × Option String)} {children : List SqlScope}
      {t : String × Option String} :
      t ∈ tables → ScopeOcc anc (.mk ctes tables children) t (ctes ++ anc)
  | child {anc : List String} {ctes : List String}
      {tables : List (String × Option String)} {children : List SqlScope}
      {c : SqlScope} {t : String × Option String} {vis : List String} :
      c ∈ children → ScopeOcc (ctes ++ anc) c t vis →
      ScopeOcc anc (.mk ctes tables children) t vis

mutual

/-- Soundness and completeness of the scope walk: a table reference is
collected exactly when it occurs somewhere in the tree with its name not
shadowed by a CTE name visible at that occurrence. -/
theorem collectScopeRefs_iff (anc : List String) (root : SqlScope)
    (t : String × Option String) :
    t ∈ collectScopeRefs anc root ↔
      ∃ vis, ScopeOcc anc root t vis ∧
        ((vis.map pyUpper).contains (pyUpper t.1)) = false := by
  obtain ⟨ctes, tables, children⟩ := root
  rw [collectScopeRefs]
  constructor
  · intro hmem
    rcases List.mem_append.mp hmem with hmem | hmem
    · rcases List.mem_filter.mp hmem with ⟨ht, hp⟩
      exact ⟨ctes ++ anc, ScopeOcc.here ht, by simpa using hp⟩
    · rcases (collectScopeRefsList_iff (ctes ++ anc) children t).mp hmem
        with ⟨c, hc, vis, hocc, hvis⟩
      exact ⟨vis, ScopeOcc.child hc hocc, hvis⟩
  · rintro ⟨vis, hocc, hvis⟩
    cases hocc with
    | here ht =>
        exact List.mem_append.mpr (Or.inl (List.mem_filter.mpr ⟨ht, by simpa using hvis⟩))
    | child hc hocc2 =>
        exact List.mem_append.mpr (Or.inr
          ((collectScopeRefsList_iff _ children t).mpr ⟨_, hc, vis, hocc2, hvis⟩))

theorem collectScopeRefsList_iff (anc : List String) (l : List SqlScope)
    (t : String × Option String) :
    t ∈ collectScopeRefsList anc l ↔
      ∃ c ∈ l, ∃ vis, ScopeOcc anc c t vis ∧
        ((vis.map pyUpper).contains (pyUpper t.1)) = false := by
  cases l with
  | nil => simp [collectScopeRefsList]
  | cons c cs =>
      rw [collectScopeRefsList]
      constructor
      · intro hmem
        rcases List.mem_append.mp hmem with hmem | hmem
        · rcases (collectScopeRefs_iff anc c t).mp hmem with ⟨vis, hocc, hvis⟩
          exact ⟨c, List.mem_cons_self c cs, vis, hocc, hvis⟩
        · rcases (collectScopeRefsList_iff anc cs t).mp hmem with ⟨c2, hc2, vis, hocc, hvis⟩
          exact ⟨c2, List.mem_cons_of_mem c hc2, vis, hocc, hvis⟩
      · rintro ⟨c2, hc2, vis, hocc, hvis⟩
        rcases List.mem_cons.mp hc2 with rfl | hc2
        · exact List.mem_append.mpr (Or.inl ((collectScopeRefs_iff anc c2 t).mpr
            ⟨vis, hocc, hvis⟩))
        · exact List.mem_append.mpr (Or.inr ((collectScopeRefsList_iff anc cs t).mpr
            ⟨c2, hc2, vis, hocc, hvis⟩))

end

theorem add_table_ref_mem (t : String × Option String)
    (acc : Finset String × Finset String) (x : String) (hx : x ∈ acc.1) :
    x ∈ (add_table_ref t acc).1 := by
  unfold add_table_ref
  dsimp only
  split
  · exact Finset.mem_insert_of_mem hx
  · exact hx

theorem tables_fold_mem :
    ∀ (l : List (String × Option String)) (acc : Finset String × Finset String) (x : String),
      x ∈ acc.1 → x ∈ (l.foldl (fun a t => add_table_ref t a) acc).1
  | [], _, _, hx => hx
  | t :: rest, acc, x, hx =>
      tables_fold_mem rest (add_table_ref t acc) x (add_table_ref_mem t acc x hx)

theorem funcs_fold_mem :
    ∀ (l : List String) (r : Finset String) (x : String),
      x ∈ r → x ∈ l.foldl (fun r f => if f ≠ "" then insert (pyUpper f) r else r) r
  | [], _, _, hx => hx
  | f :: rest, r, x, hx => by
      show x ∈ List.foldl _ (if f ≠ "" then insert (pyUpper f) r else r) rest
      refine funcs_fold_mem rest _ x ?_
      split
      · exact Finset.mem_insert_of_mem hx
      · exact hx

theorem funcs_fold_self :
    ∀ (l : List String) (r : Finset String) (f : String),
      f ∈ l → f ≠ "" →
      pyUpper f ∈ l.foldl (fun r f => if f ≠ "" then insert (pyUpper f) r else r) r
  | [], _, _, hf, _ => absurd hf (List.not_mem_nil _)
  | g :: rest, r, f, hf, hne => by
      rcases List.mem_cons.mp hf with rfl | hf
      · show pyUpper f ∈ List.foldl _ (if f ≠ "" then insert (pyUpper f) r else r) rest
        rw [if_pos hne]
        exact funcs_fold_mem rest _ _ (Finset.mem_insert_self _ _)
      · exact funcs_fold_self rest _ f hf hne

theorem extractStmtRefs_mono (p : ParsedStmt) (acc : Finset String × Finset String)
    (x : String) (hx : x ∈ acc.1) : x ∈ (extractStmtRefs p acc).1 := by
  unfold extractStmtRefs
  exact funcs_fold_mem _ _ _ (tables_fold_mem _ acc x hx)

theorem extractStmtRefs_funcs (p : ParsedStmt) (acc : Finset String × Finset String)
    (f : String) (hf : f ∈ p.funcs) (hne : f ≠ "") :
    pyUpper f ∈ (extractStmtRefs p acc).1 := by
  unfold extractStmtRefs
  exact funcs_fold_self _ _ f hf hne

theorem extract_fold_mem :
    ∀ (stmts : List ParsedStmt) (acc : Finset String × Finset String) (x : String),
      x ∈ acc.1 → x ∈ (stmts.foldl (fun acc p => extractStmtRefs p acc) acc).1
  | [], _, _, hx => hx
  | p :: rest, acc, x, hx =>
      extract_fold_mem rest (extractStmtRefs p acc) x (extractStmtRefs_mono p acc x hx)

theorem extract_references_funcs :
    ∀ (stmts : List ParsedStmt) (acc : Finset String × Finset String)
      (p : ParsedStmt) (f : String),
      p ∈ stmts → f ∈ p.funcs → f ≠ "" →
      pyUpper f ∈ (stmts.foldl (fun acc p => extractStmtRefs p acc) acc).1
  | [], _, _, _, hp, _, _ => absurd hp (List.not_mem_nil _)
  | q :: rest, acc, p, f, hp, hf, hne => by
      rcases List.mem_cons.mp hp with rfl | hp
      · exact extract_fold_mem rest _ _ (extractStmtRefs_funcs p acc f hf hne)
      · exact extract_references_funcs rest _ p f hp hf hne

/-- **C8.** For the script
`WITH cte AS (SELECT 1) SELECT * FROM cte JOIN real_table` the
referenced-name set is exactly `{REAL_TABLE}` (the CTE name is excluded);
in general the scope walk counts a table reference exactly when its name
is not shadowed by a CTE name visible in its own scope or any ancestor
scope, while function invocations are always counted. -/
theorem c8_cte_exclusion :
    (extract_references [cteExampleStmt]).1 = {"REAL_TABLE"} ∧
    (∀ (anc : List String) (root : SqlScope) (t : String × Option String),
        t ∈ collectScopeRefs anc root ↔
          ∃ vis, ScopeOcc anc root t vis ∧
            ((vis.map pyUpper).contains (pyUpper t.1)) = false) ∧
    (∀ (stmts : List ParsedStmt) (p : ParsedStmt) (f : String),
        p ∈ stmts → f ∈ p.funcs → f ≠ "" →
        pyUpper f ∈ (extract_references stmts).1) :=
  ⟨by decide, collectScopeRefs_iff,
   fun stmts p f hp hf hne => extract_references_funcs stmts (∅, ∅) p f hp hf hne⟩

/-- Witness for C8's conditional parts: the unshadowed table of the example
is collected (via the characterization), and a function reference `BAR` is
always counted even when a CTE of the same name exists. -/
theorem c8_cte_exclusion_witness :
    ("real_table", (none : Option String)) ∈ collectScopeRefs [] cteExampleScope ∧
    pyUpper "bar" ∈ (extract_references [⟨some (.mk ["bar"] [] []), [], ["bar"]⟩]).1 :=
  ⟨(c8_cte_exclusion.2.1 [] cteExampleScope ("real_table", none)).mpr
     ⟨["cte"], ScopeOcc.here (by decide), by decide⟩,
   c8_cte_exclusion.2.2 [⟨some (.mk ["bar"] [] []), [], ["bar"]⟩] _ "bar"
     (List.mem_cons_self _ _) (List.mem_cons_self _ _) (by decide)⟩

/-! ## Context rendering order (`_fetch_metadata` / `_format_output`)

The sqlite metadata store is a list of `schema_objects` rows; the query's
`WHERE obj_name IN (...) AND project_name = ?` filter and its
`ORDER BY CASE obj_type WHEN 'TABLE' THEN 0 WHEN 'VIEW' THEN 1 ELSE 2 END,
schema_name, obj_name` sort are embedded directly. -/

/-- A row of the `schema_objects` table. -/
structure SchemaObject where
  project_name : String
  schema_name : String
  obj_name : String
  obj_type : String
  ddl_script : Option String
  source_code : Option String
deriving DecidableEq, Repr

/-- The `CASE obj_type WHEN 'TABLE' THEN 0 WHEN 'VIEW' THEN 1 ELSE 2 END`
sort key. -/
def typeRank (t : String) : Nat :=
  if t = "TABLE" then 0 else if t = "VIEW" then 1 else 2

/-- The full `ORDER BY` key: type rank, then schema name, then object
name, lexicographically. -/
def rowKey (r : SchemaObject) : Lex (Nat × Lex (String × String)) :=
  toLex (typeRank r.obj_type, toLex (r.schema_name, r.obj_name))

/-- Row order used by the metadata query. -/
def rowLE (a b : SchemaObject) : Prop := rowKey a ≤ rowKey b

instance : IsTotal SchemaObject rowLE := ⟨fun a b => le_total (rowKey a) (rowKey b)⟩

instance : IsTrans SchemaObject rowLE := ⟨fun _ _ _ hab hbc => le_trans hab hbc⟩

instance : DecidableRel rowLE :=
  fun a b => inferInstanceAs (Decidable (rowKey a ≤ rowKey b))

/-- `RAGContextBuilder._fetch_metadata`: filter the store by referenced
name and project namespace, ordered by the `ORDER BY` key. -/
def fetch_metadata (store : List SchemaObject) (project_name : String)
    (names : Finset String) : List SchemaObject :=
  List.insertionSort rowLE
    (store.filter (fun r => decide (r.obj_name ∈ names ∧ r.project_name = project_name)))

/-- The lines `_format_output` emits for one row: table/view rows with a
(non-empty) stored DDL get a `-- Table/View:` header plus the DDL; routine
rows with stored source get a `-- Source Code:` header plus the source;
anything else renders nothing. -/
def formatEntryParts (m : SchemaObject) : List String :=
  let full_name := m.schema_name ++ "." ++ m.obj_name
  if m.obj_type = "TABLE" ∨ m.obj_type = "VIEW" then
    match m.ddl_script with
    | some ddl => if ddl = "" then [] else ["-- Table/View: " ++ full_name, ddl]
    | none => []
  else if m.obj_type = "PROCEDURE" ∨ m.obj_type = "FUNCTION" ∨ m.obj_type = "PACKAGE" then
    match m.source_code with
    | some src => if src = "" then [] else ["-- Source Code: " ++ full_name, src]
    | none => []
  else []

/-- `RAGContextBuilder._format_output`: header, per-row sections in list
order, footer, joined by newlines. -/
def format_output (metadata_list : List SchemaObject) : String :=
  joinSep "\n"
    (["\n--- [Related Schema Information] ---"]
      ++ (metadata_list.map formatEntryParts).flatten
      ++ ["------------------------------------\n"])

/-- The deterministic order the claim describes: type rank never
decreases, and rows in the same kind-rank bucket (TABLE; VIEW; all other
kinds together) are ordered by schema name then object name.  This covers
in particular any two rows of equal `obj_type`, but also rows of distinct
other kinds (FUNCTION vs PROCEDURE vs PACKAGE), which share rank 2. -/
def claimOrder (a b : SchemaObject) : Prop :=
  typeRank a.obj_type ≤ typeRank b.obj_type ∧
    (typeRank a.obj_type = typeRank b.obj_type →
      a.schema_name < b.schema_name ∨
        (a.schema_name = b.schema_name ∧ a.obj_name ≤ b.obj_name))

theorem rowLE_claimOrder {a b : SchemaObject} (h : rowLE a b) : claimOrder a b := by
  unfold rowLE rowKey at h
  rw [Prod.Lex.le_iff] at h
  constructor
  · rcases h with h | ⟨heq, _⟩
    · exact le_of_lt h
    · exact le_of_eq heq
  · intro hrank
    rcases h with h | ⟨_, h2⟩
    · rw [hrank] at h
      exact absurd h (lt_irrefl _)
    · rw [Prod.Lex.le_iff] at h2
      exact h2

/-- **C9.** For every metadata store, project namespace and referenced-name
set, the fetched rows — and therefore the entries rendered into the
context document, which follow list order — are ordered deterministically:
TABLE rows first, then VIEW, then all other kinds, and within the same
kind rank (hence in particular within the same kind) alphabetically by
schema name and then object name. -/
theorem c9_context_order (store : List SchemaObject) (project_name : String)
    (names : Finset String) :
    List.Pairwise claimOrder (fetch_metadata store project_name names) ∧
    List.Pairwise claimOrder
      ((fetch_metadata store project_name names).filter
        (fun m => !(formatEntryParts m).isEmpty)) := by
  have hsorted : List.Sorted rowLE (fetch_metadata store project_name names) :=
    List.sorted_insertionSort rowLE _
  have hpair : List.Pairwise claimOrder (fetch_metadata store project_name names) :=
    List.Pairwise.imp (fun h => rowLE_claimOrder h) hsorted
  exact ⟨hpair, List.Pairwise.filter _ hpair⟩

end Any2PG
